import Mathlib

/-!
Verification of the wikiloc-maphub exporter (src/wikiloc_export.py).

Shallow embedding conventions:

* Python dicts that are used as JSON objects are association lists
  (`List (key × value)`); `alistLookup` models `d[k]` / `k in d`, and
  `setKey` models `d[k] = v` (update the value in place for an existing
  key, append otherwise — Python dict insertion-order semantics).
* Numeric values (coordinates, elevations, HTTP status codes rendered
  into f-strings) are represented by their textual rendering, because
  the source only ever compares or interpolates them as strings
  (the join key is an exact string match).
* `MARKER_DICT` is a `defaultdict(lambda: "location-pin")`: a lookup of
  a missing key returns the default AND inserts it into the table, so
  the table is threaded through `update_geojson` as explicit state.
* Fallible dict/list accesses become `Except PyError`, with
  `PyError.indexError` and `PyError.keyError` mirroring the Python
  exceptions that the unguarded accesses can raise.
-/

namespace WikilocExport

/-- Python exceptions that the modelled code can raise. -/
inductive PyError where
  | indexError
  | keyError
deriving DecidableEq, Repr

/-- Association-list lookup: `d[k]` / `k in d` on a Python dict. -/
def alistLookup {α β : Type} [DecidableEq α] (k : α) : List (α × β) → Option β
  | [] => none
  | (k', v) :: rest => if k' = k then some v else alistLookup k rest

/-- Python dict assignment `d[k] = v`: update the first entry with key `k`
in place, or append a new entry when the key is absent. -/
def setKey {α β : Type} [DecidableEq α] (l : List (α × β)) (k : α) (v : β) : List (α × β) :=
  match l with
  | [] => [(k, v)]
  | (k', v') :: rest => if k' = k then (k', v) :: rest else (k', v') :: setKey rest k v

/-- The state of the `MARKER_DICT` defaultdict: keys are `pictogramName`
values (`none` models Python `None` from `dict.get`). -/
abbrev MarkerTable : Type := List (Option String × String)

/-- Initial contents of `MARKER_DICT` (wikiloc_export.py lines 35-44). -/
def MARKER_DICT : MarkerTable :=
  [(some "Intersection", "crossing"),
   (some "Cave", "summit"),
   (some "River", "dam"),
   (some "Tree", "forest"),
   (some "Waterfall", "dam"),
   (some "Museum", "museum"),
   (some "Castle", "museum")]

/-- A `defaultdict(lambda: "location-pin")` read `MARKER_DICT[k]`: returns
the stored value on a hit; on a miss it returns the default value and
inserts the missing key with that default into the table. -/
def defaultdictGet (t : MarkerTable) (k : Option String) : String × MarkerTable :=
  match alistLookup k t with
  | some v => (v, t)
  | none => ("location-pin", t ++ [(k, "location-pin")])

/-- The category-to-icon function a marker table currently computes. -/
def lookFn (t : MarkerTable) : Option String → String :=
  fun k => (defaultdictGet t k).1

/-- A waypoint as read from `mapData.waypoints`: the fields the source
accesses. `lon`, `lat` and `elevation` are the textual renderings of
the numeric values (the code only interpolates them into f-strings). -/
structure Waypoint where
  lon : String
  lat : String
  name : String
  elevation : String
  pictogramName : Option String
deriving DecidableEq, Repr

/-- The parts of a GeoJSON geometry object the source accesses:
`geometry['type']` and `geometry['coordinates']`. Coordinate entries are
the textual renderings of the values interpolated into the join key. -/
structure Geometry where
  type? : Option String
  coordinates? : Option (List String)
deriving DecidableEq, Repr

/-- A GeoJSON feature: an optional `geometry` member and an optional
`properties` member (an arbitrary JSON object, modelled as an
association list of rendered values). -/
structure Feature where
  geometry : Option Geometry
  properties : Option (List (String × String))
deriving DecidableEq, Repr

/-- The feature collection produced by the page-side export. -/
structure TrailGeojson where
  features : List Feature
deriving DecidableEq, Repr

/-- Join key of a waypoint: the f-string rendering of the pair of its lon and lat. -/
def joinKey (w : Waypoint) : String := w.lon ++ "-" ++ w.lat

/-- The dict comprehension on line 49: a dict from join key to waypoint,
later entries overwriting earlier ones with the same key. -/
def waypointsDict (ws : List Waypoint) : List (String × Waypoint) :=
  ws.foldl (fun d w => setKey d (joinKey w) w) []

/-- The join key a feature would produce on line 52, when the accesses
`f['geometry']['coordinates'][0]` and `[1]` all succeed. -/
def featureMatchKey (f : Feature) : Option String :=
  match f.geometry with
  | none => none
  | some geom =>
    match geom.coordinates? with
    | none => none
    | some cs =>
      match cs[0]?, cs[1]? with
      | some c0, some c1 => some (c0 ++ "-" ++ c1)
      | _, _ => none

/-- Whether a feature's join key hits the waypoint dict. -/
def matchesWaypoint (ws : List Waypoint) (f : Feature) : Bool :=
  match featureMatchKey f with
  | some k => (alistLookup k (waypointsDict ws)).isSome
  | none => false

/-- The properties object built on lines 56-60 for a matched waypoint,
parameterised by the category-to-icon function in effect. -/
def waypointProps (look : Option String → String) (w : Waypoint) : List (String × String) :=
  [("title", w.name),
   ("description", "Elevation: " ++ w.elevation ++ "m"),
   ("marker-symbol", look w.pictogramName)]

/-- The filter on line 65: does the feature have a geometry whose `type`
is the string Point. -/
def isPointFeature (f : Feature) : Bool :=
  match f.geometry with
  | some geom => decide (geom.type? = some "Point")
  | none => false

/-- Index of the first point-typed feature of a list, if any. -/
def firstPointIdx : List Feature → Option Nat
  | [] => none
  | f :: fs => if isPointFeature f then some 0 else (firstPointIdx fs).map (· + 1)

/-- Whether the loop body of lines 50-60 can process a feature without
raising: either the feature has no geometry, or the join-key accesses
succeed. -/
def featOk (f : Feature) : Bool :=
  f.geometry.isNone || (featureMatchKey f).isSome

/-- One iteration of the loop on lines 50-60, threading the
`MARKER_DICT` state mutated by the defaultdict lookup on line 59. -/
def update_feature (d : List (String × Waypoint)) (t : MarkerTable) (f : Feature) :
    Except PyError (Feature × MarkerTable) :=
  match f.geometry with
  | none => .ok (f, t)
  | some geom =>
    match geom.coordinates? with
    | none => .error .keyError
    | some cs =>
      match cs[0]?, cs[1]? with
      | some c0, some c1 =>
        let key := c0 ++ "-" ++ c1
        match alistLookup key d with
        | some waypoint_info =>
          let r := defaultdictGet t waypoint_info.pictogramName
          let props := [("title", waypoint_info.name),
                        ("description", "Elevation: " ++ waypoint_info.elevation ++ "m"),
                        ("marker-symbol", r.1)]
          .ok ({ f with properties := some props }, r.2)
        | none => .ok (f, t)
      | _, _ => .error .indexError

/-- The whole loop of lines 50-60 over the feature list. -/
def update_features (d : List (String × Waypoint)) :
    MarkerTable → List Feature → Except PyError (List Feature × MarkerTable)
  | t, [] => .ok ([], t)
  | t, f :: fs =>
    match update_feature d t f with
    | .error e => .error e
    | .ok (f1, t1) =>
      match update_features d t1 fs with
      | .error e => .error e
      | .ok (fs1, t2) => .ok (f1 :: fs1, t2)

/-- Line 65: pick the first feature whose geometry type is Point
(IndexError when there is none), read its `properties`
(KeyError when absent) and set `marker-color` in it. -/
def color_first_point : List Feature → Except PyError (List Feature)
  | [] => .error .indexError
  | f :: fs =>
    if isPointFeature f then
      match f.properties with
      | none => .error .keyError
      | some ps => .ok ({ f with properties := some (setKey ps "marker-color" "#3cc954") } :: fs)
    else
      match color_first_point fs with
      | .error e => .error e
      | .ok fs1 => .ok (f :: fs1)

/-- Model of `update_geojson` (lines 47-66), with the `MARKER_DICT` global passed
and returned as explicit state. The diagnostic print on line 62 reads the
waypoints with `dict.get` only and has no effect on the result. -/
def update_geojson (t : MarkerTable) (trail_geojson : TrailGeojson)
    (trail_waypoints : List Waypoint) : Except PyError (TrailGeojson × MarkerTable) :=
  let trail_waypoints_dict := waypointsDict trail_waypoints
  match update_features trail_waypoints_dict t trail_geojson.features with
  | .error e => .error e
  | .ok (fs, t1) =>
    match color_first_point fs with
    | .error e => .error e
    | .ok fs1 => .ok (⟨fs1⟩, t1)

/-- Boolean success test for an `Except` result. -/
def exceptIsOk {ε α : Type} : Except ε α → Bool
  | .ok _ => true
  | .error _ => false

/-- A JSON object of an API response, as far as the source reads it:
string keys to rendered values. -/
abbrev JsonObj : Type := List (String × String)

/-- The three MapHub endpoints the publish sequence can POST to. -/
inductive ApiEndpoint where
  | upload
  | update
  | refreshImage
deriving DecidableEq, Repr

/-- Observable behaviour of one publish run: which endpoints were
POSTed in order, what was printed, and whether the run raised. -/
structure RunTrace where
  calls : List ApiEndpoint
  printed : List String
  outcome : Except PyError Unit
deriving Repr

/-- Effect of `update_map` (lines 68-105) given the JSON of the update
response: the messages it prints and whether it raises. Reading
`data['error']` raises KeyError when neither `id` nor `error` is present. -/
def update_map (resp : JsonObj) : List String × Except PyError Unit :=
  match alistLookup "id" resp with
  | some _ => (["Map updated"], .ok ())
  | none =>
    match alistLookup "error" resp with
    | some e => ([e], .ok ())
    | none => ([], .error .keyError)

/-- Effect of `refresh_map_image` (lines 108-134) given the JSON of the
refresh response. -/
def refresh_map_image (resp : JsonObj) : List String × Except PyError Unit :=
  match alistLookup "id" resp with
  | some _ => (["REFRESHING MAP IMAGE"], .ok ())
  | none =>
    match alistLookup "error" resp with
    | some e => (["REFRESHING MAP IMAGE", e], .ok ())
    | none => (["REFRESHING MAP IMAGE"], .error .keyError)

/-- Single-quote character used by the final success message. -/
def squote : String := String.singleton (Char.ofNat 39)

/-- Model of `create_maphub_trailmap` (lines 137-170) as a function of the three
remote responses: the upload POST always happens; `data["id"]` raises
KeyError when the create response has no id, aborting before the update
and refresh calls; otherwise `update_map` and `refresh_map_image` run in
sequence and the final message reads `data['url']`. -/
def create_maphub_trailmap (trail_title : String) (trail_uri : String)
    (createResp updateResp refreshResp : JsonObj) : RunTrace :=
  let msgs0 := ["CREATING MAPHUB MAP"]
  match alistLookup "id" createResp with
  | none => ⟨[.upload], msgs0, .error .keyError⟩
  | some map_id =>
    match update_map updateResp with
    | (m1, .error e) => ⟨[.upload, .update], msgs0 ++ m1, .error e⟩
    | (m1, .ok _) =>
      match refresh_map_image refreshResp with
      | (m2, .error e) => ⟨[.upload, .update, .refreshImage], msgs0 ++ m1 ++ m2, .error e⟩
      | (m2, .ok _) =>
        match alistLookup "url" createResp with
        | none => ⟨[.upload, .update, .refreshImage], msgs0 ++ m1 ++ m2, .error .keyError⟩
        | some url =>
          let finalMsg := "MAP CREATED! ID: " ++ squote ++ map_id ++ squote ++
            ", TITLE: " ++ squote ++ trail_title ++ squote ++
            ", URL: " ++ squote ++ url ++ squote
          ⟨[.upload, .update, .refreshImage], msgs0 ++ m1 ++ m2 ++ [finalMsg], .ok ()⟩

/-- The parts of a Playwright navigation response that `skip_or_fail`
reads: the HTTP status and the URL. -/
structure NavResponse where
  status : Nat
  url : String
deriving DecidableEq, Repr

/-- Outcome of `skip_or_fail`: normal return, a `click.ClickException`
(CLI failure with a message), or `raise SystemExit` after echoing a
message (process exit with status 0). -/
inductive CheckOutcome where
  | ok
  | clickError (msg : String)
  | exitSuccess (echoed : String)
deriving DecidableEq, Repr

/-- Whether an outcome is the silent success exit. -/
def isExitSuccess : CheckOutcome → Bool
  | .exitSuccess _ => true
  | _ => false

/-- The test `str(response.status)[0] in ("4", "5")` on line 221. -/
def firstDigitIs45 (n : Nat) : Bool :=
  let c := (toString n).front
  c == Char.ofNat 52 || c == Char.ofNat 53

/-- Model of `skip_or_fail` (lines 218-232). The Python defaults are
`skip = False`, `fail = True`. -/
def skip_or_fail (response : NavResponse) (skip : Bool) (fail : Bool) : CheckOutcome :=
  if skip && fail then
    .clickError "--skip and --fail cannot be used together"
  else if firstDigitIs45 response.status then
    if skip then
      .exitSuccess (toString response.status ++ " error for " ++ response.url ++ ", skipping")
    else if fail then
      .clickError (toString response.status ++ " error for " ++ response.url)
    else
      .ok
  else
    .ok

/-- Pure characterisation of one loop iteration (lines 50-60), for runs
where no access raises: the feature is rewritten with the waypoint
properties exactly when its join key hits the dict, using the
category-to-icon function `look` in effect at the start of the run. -/
def updFeatPure (d : List (String × Waypoint)) (look : Option String → String)
    (f : Feature) : Feature :=
  match featureMatchKey f with
  | some key =>
    match alistLookup key d with
    | some w => { f with properties := some (waypointProps look w) }
    | none => f
  | none => f

/-- Recolouring applied to the first point feature on line 65, given its
properties object. -/
def withMarkerColor (f : Feature) (ps : List (String × String)) : Feature :=
  { f with properties := some (setKey ps "marker-color" "#3cc954") }

/-- Concrete scenario waypoint: lon 1.0, lat 2.0, name Peak,
elevation 850, category Cave. -/
def exWaypoint : Waypoint := ⟨"1.0", "2.0", "Peak", "850", some "Cave"⟩

/-- Concrete Point feature at coordinates 1.0, 2.0 with empty properties. -/
def exFeature : Feature := ⟨some ⟨some "Point", some ["1.0", "2.0"]⟩, some []⟩

/-- Geometry collection holding just the scenario point. -/
def exG : TrailGeojson := ⟨[exFeature]⟩

/-- Waypoint list holding just the scenario waypoint. -/
def exWs : List Waypoint := [exWaypoint]

/-- Properties the scenario point actually ends up with. -/
def cexOutProps : List (String × String) :=
  [("title", "Peak"), ("description", "Elevation: 850m"),
   ("marker-symbol", "summit"), ("marker-color", "#3cc954")]

/-- Waypoint with a category label absent from the marker table. -/
def volcanoWaypoint : Waypoint := ⟨"1.0", "2.0", "Mirador", "1200", some "Volcano"⟩

/-- Waypoint list whose only entry carries the unrecognised category. -/
def exWs9 : List Waypoint := [volcanoWaypoint]

/-- A non-point feature with pre-existing properties and line-shaped
coordinate entries, which never match a waypoint join key. -/
def lineFeature : Feature :=
  ⟨some ⟨some "LineString", some ["[1.0, 2.0]", "[3.0, 4.0]"]⟩, some [("stroke", "red")]⟩

/-- Collection with the matched scenario point first and a line second. -/
def exG2 : TrailGeojson := ⟨[exFeature, lineFeature]⟩

/-- A Point feature that matches no waypoint but carries properties. -/
def plainPoint : Feature := ⟨some ⟨some "Point", some ["9.0", "9.0"]⟩, some [("name", "start")]⟩

/-- Collection holding just the unmatched point. -/
def exG3 : TrailGeojson := ⟨[plainPoint]⟩

/-- The scenario point as it comes out of the merge. -/
def exPointOut : Feature := ⟨some ⟨some "Point", some ["1.0", "2.0"]⟩, some cexOutProps⟩

/-- Output of the merge on the single-point scenario. -/
def exGout : TrailGeojson := ⟨[exPointOut]⟩

/-- Output of the merge on the point-plus-line collection. -/
def exG2out : TrailGeojson := ⟨[exPointOut, lineFeature]⟩

/-- Output of the merge on the unmatched-point collection: properties
kept, marker colour appended. -/
def exG3out : TrailGeojson :=
  ⟨[⟨plainPoint.geometry, some [("name", "start"), ("marker-color", "#3cc954")]⟩]⟩

/-- Output of the merge when the only waypoint carries the unrecognised
category label. -/
def exG9out : TrailGeojson :=
  ⟨[⟨some ⟨some "Point", some ["1.0", "2.0"]⟩,
     some [("title", "Mirador"), ("description", "Elevation: 1200m"),
           ("marker-symbol", "location-pin"), ("marker-color", "#3cc954")]⟩]⟩

/-- Marker table after the run on the unrecognised category: the
defaultdict lookup has inserted the missing key with the default icon. -/
def exT9 : MarkerTable := MARKER_DICT ++ [(some "Volcano", "location-pin")]

/-! ### Association-list and defaultdict lemmas -/

theorem alistLookup_append_some {α β : Type} [DecidableEq α] {k : α} {v : β}
    {l1 : List (α × β)} (l2 : List (α × β)) (h : alistLookup k l1 = some v) :
    alistLookup k (l1 ++ l2) = some v := by
  induction l1 with
  | nil => simp [alistLookup] at h
  | cons p rest ih =>
    obtain ⟨k', v'⟩ := p
    simp only [alistLookup, List.cons_append] at h ⊢
    by_cases hk : k' = k
    · simpa [hk] using h
    · rw [if_neg hk] at h ⊢
      exact ih h

theorem alistLookup_append_none {α β : Type} [DecidableEq α] {k : α}
    {l1 : List (α × β)} (l2 : List (α × β)) (h : alistLookup k l1 = none) :
    alistLookup k (l1 ++ l2) = alistLookup k l2 := by
  induction l1 with
  | nil => simp
  | cons p rest ih =>
    obtain ⟨k', v'⟩ := p
    simp only [alistLookup, List.cons_append] at h ⊢
    by_cases hk : k' = k
    · rw [if_pos hk] at h; exact absurd h (by simp)
    · rw [if_neg hk] at h ⊢
      exact ih h

theorem lookFn_defaultdictGet_snd (t : MarkerTable) (k k' : Option String) :
    lookFn (defaultdictGet t k).2 k' = lookFn t k' := by
  unfold lookFn defaultdictGet
  rcases h : alistLookup k t with _ | v
  · rcases h' : alistLookup k' t with _ | v'
    · rw [alistLookup_append_none _ h']
      by_cases hk : k = k'
      · simp [alistLookup, hk]
      · simp [alistLookup, hk]
    · rw [alistLookup_append_some _ h']
  · rfl

theorem setKey_setKey {α β : Type} [DecidableEq α] (l : List (α × β)) (k : α) (v : β) :
    setKey (setKey l k v) k v = setKey l k v := by
  induction l with
  | nil => simp [setKey]
  | cons p rest ih =>
    obtain ⟨k', v'⟩ := p
    by_cases hk : k' = k
    · simp [setKey, hk]
    · simp [setKey, hk, ih]

theorem setKey_of_lookup_none {α β : Type} [DecidableEq α] {k : α} {l : List (α × β)}
    (v : β) (h : alistLookup k l = none) : setKey l k v = l ++ [(k, v)] := by
  induction l with
  | nil => rfl
  | cons p rest ih =>
    obtain ⟨k', v'⟩ := p
    simp only [alistLookup] at h
    by_cases hk : k' = k
    · rw [if_pos hk] at h; exact absurd h (by simp)
    · rw [if_neg hk] at h
      simp [setKey, hk, ih h]

theorem alistLookup_waypointProps_mc (look : Option String → String) (w : Waypoint) :
    alistLookup "marker-color" (waypointProps look w) = none := by
  simp [alistLookup, waypointProps]

theorem setKey_waypointProps_mc (look : Option String → String) (w : Waypoint) (v : String) :
    setKey (waypointProps look w) "marker-color" v =
      waypointProps look w ++ [("marker-color", v)] :=
  setKey_of_lookup_none v (alistLookup_waypointProps_mc look w)

/-! ### Feature-level lemmas -/

theorem geometry_setProps (f : Feature) (p : Option (List (String × String))) :
    ({ f with properties := p } : Feature).geometry = f.geometry := rfl

theorem feature_setProps_setProps (f : Feature) (p q : Option (List (String × String))) :
    ({ { f with properties := p } with properties := q } : Feature) =
      { f with properties := q } := rfl

theorem featureMatchKey_geom {f1 f2 : Feature} (h : f1.geometry = f2.geometry) :
    featureMatchKey f1 = featureMatchKey f2 := by
  unfold featureMatchKey; rw [h]

theorem isPointFeature_geom {f1 f2 : Feature} (h : f1.geometry = f2.geometry) :
    isPointFeature f1 = isPointFeature f2 := by
  unfold isPointFeature; rw [h]

theorem featOk_geom {f1 f2 : Feature} (h : f1.geometry = f2.geometry) :
    featOk f1 = featOk f2 := by
  unfold featOk; rw [featureMatchKey_geom h, h]

theorem updFeatPure_of_none {d : List (String × Waypoint)} {look : Option String → String}
    {f : Feature} (h : featureMatchKey f = none) : updFeatPure d look f = f := by
  unfold updFeatPure; simp only [h]

theorem updFeatPure_of_miss {d : List (String × Waypoint)} {look : Option String → String}
    {f : Feature} {k : String} (h : featureMatchKey f = some k)
    (h2 : alistLookup k d = none) : updFeatPure d look f = f := by
  unfold updFeatPure; simp only [h, h2]

theorem updFeatPure_of_hit {d : List (String × Waypoint)} {look : Option String → String}
    {f : Feature} {k : String} {w : Waypoint} (h : featureMatchKey f = some k)
    (h2 : alistLookup k d = some w) :
    updFeatPure d look f = { f with properties := some (waypointProps look w) } := by
  unfold updFeatPure; simp only [h, h2]

theorem updFeatPure_geometry (d : List (String × Waypoint)) (look : Option String → String)
    (f : Feature) : (updFeatPure d look f).geometry = f.geometry := by
  rcases hk : featureMatchKey f with _ | k
  · rw [updFeatPure_of_none hk]
  · rcases h2 : alistLookup k d with _ | w
    · rw [updFeatPure_of_miss hk h2]
    · rw [updFeatPure_of_hit hk h2]

theorem updFeatPure_isPoint (d : List (String × Waypoint)) (look : Option String → String)
    (f : Feature) : isPointFeature (updFeatPure d look f) = isPointFeature f :=
  isPointFeature_geom (updFeatPure_geometry d look f)

theorem updFeatPure_matchKey (d : List (String × Waypoint)) (look : Option String → String)
    (f : Feature) : featureMatchKey (updFeatPure d look f) = featureMatchKey f :=
  featureMatchKey_geom (updFeatPure_geometry d look f)

theorem updFeatPure_featOk (d : List (String × Waypoint)) (look : Option String → String)
    (f : Feature) : featOk (updFeatPure d look f) = featOk f :=
  featOk_geom (updFeatPure_geometry d look f)

theorem updFeatPure_idem (d : List (String × Waypoint)) (look : Option String → String)
    (f : Feature) : updFeatPure d look (updFeatPure d look f) = updFeatPure d look f := by
  rcases hk : featureMatchKey f with _ | k
  · rw [updFeatPure_of_none hk, updFeatPure_of_none hk]
  · rcases h2 : alistLookup k d with _ | w
    · rw [updFeatPure_of_miss hk h2, updFeatPure_of_miss hk h2]
    · rw [updFeatPure_of_hit hk h2]
      have hk2 : featureMatchKey ({ f with properties := some (waypointProps look w) } : Feature)
          = some k := by
        rw [featureMatchKey_geom (geometry_setProps f _), hk]
      rw [updFeatPure_of_hit hk2 h2, feature_setProps_setProps]

theorem waypointProps_congr {look1 look2 : Option String → String}
    (hl : ∀ k, look1 k = look2 k) (w : Waypoint) :
    waypointProps look1 w = waypointProps look2 w := by
  unfold waypointProps; rw [hl]

theorem updFeatPure_congr {d : List (String × Waypoint)} {look1 look2 : Option String → String}
    (hl : ∀ k, look1 k = look2 k) (f : Feature) :
    updFeatPure d look1 f = updFeatPure d look2 f := by
  rcases hk : featureMatchKey f with _ | k
  · rw [updFeatPure_of_none hk, updFeatPure_of_none hk]
  · rcases h2 : alistLookup k d with _ | w
    · rw [updFeatPure_of_miss hk h2, updFeatPure_of_miss hk h2]
    · rw [updFeatPure_of_hit hk h2, updFeatPure_of_hit hk h2, waypointProps_congr hl]

theorem updFeatPure_unmatched {ws : List Waypoint} {f : Feature}
    (look : Option String → String) (h : matchesWaypoint ws f = false) :
    updFeatPure (waypointsDict ws) look f = f := by
  unfold matchesWaypoint at h
  rcases hk : featureMatchKey f with _ | k
  · exact updFeatPure_of_none hk
  · simp only [hk] at h
    rcases h2 : alistLookup k (waypointsDict ws) with _ | w
    · exact updFeatPure_of_miss hk h2
    · simp only [h2] at h; simp at h

theorem updFeatPure_matched {ws : List Waypoint} {f : Feature} {k : String}
    (hk : featureMatchKey f = some k)
    (hw : alistLookup k (waypointsDict ws) = none → False) :
    matchesWaypoint ws f = true := by
  unfold matchesWaypoint
  simp only [hk]
  rcases h2 : alistLookup k (waypointsDict ws) with _ | w
  · exact absurd h2 hw
  · simp [h2]

/-! ### List bookkeeping lemmas -/

theorem list_map_fixed {α : Type} {u : α → α} {l : List α} (h : ∀ x ∈ l, u x = x) :
    l.map u = l := by
  induction l with
  | nil => rfl
  | cons a rest ih =>
    simp only [List.map_cons]
    rw [h a (by simp), ih (fun x hx => h x (by simp [hx]))]

theorem firstPointIdx_append {pre post : List Feature} {f : Feature}
    (hpre : ∀ x ∈ pre, isPointFeature x = false) (hf : isPointFeature f = true) :
    firstPointIdx (pre ++ f :: post) = some pre.length := by
  induction pre with
  | nil => simp [firstPointIdx, hf]
  | cons a rest ih =>
    have ha : isPointFeature a = false := hpre a (by simp)
    have ih' := ih (fun x hx => hpre x (by simp [hx]))
    simp [firstPointIdx, ha, ih']

theorem firstPointIdx_map {u : Feature → Feature}
    (h : ∀ x, isPointFeature (u x) = isPointFeature x) (l : List Feature) :
    firstPointIdx (l.map u) = firstPointIdx l := by
  induction l with
  | nil => rfl
  | cons a rest ih =>
    simp only [List.map_cons, firstPointIdx, h a, ih]

theorem getElem?_append_cons {α : Type} (pre : List α) (a : α) (post : List α) :
    (pre ++ a :: post)[pre.length]? = some a := by
  induction pre with
  | nil => simp
  | cons b rest ih => simpa using ih

theorem set_append_cons {α : Type} (pre : List α) (a b : α) (post : List α) :
    (pre ++ a :: post).set pre.length b = pre ++ b :: post := by
  induction pre with
  | nil => rfl
  | cons c rest ih => simp [List.set, ih]

theorem list_getElem?_set_ne {α : Type} {i j : Nat} (h : i ≠ j) (l : List α) (a : α) :
    (l.set i a)[j]? = l[j]? := by
  induction l generalizing i j with
  | nil => simp
  | cons b rest ih =>
    cases i with
    | zero =>
      cases j with
      | zero => exact absurd rfl h
      | succ j' => simp [List.set]
    | succ i' =>
      cases j with
      | zero => simp [List.set]
      | succ j' =>
        simp only [List.set, List.getElem?_cons_succ]
        exact ih (fun hh => h (by rw [hh]))

theorem list_getElem?_set_self {α : Type} {i : Nat} {l : List α} (h : i < l.length) (a : α) :
    (l.set i a)[i]? = some a := by
  induction l generalizing i with
  | nil => simp at h
  | cons b rest ih =>
    cases i with
    | zero => simp [List.set]
    | succ i' =>
      simp only [List.set, List.getElem?_cons_succ]
      exact ih (by simpa using h)

theorem list_getElem?_some_lt {α : Type} {i : Nat} {l : List α} {a : α}
    (h : l[i]? = some a) : i < l.length := by
  induction l generalizing i with
  | nil => simp at h
  | cons b rest ih =>
    cases i with
    | zero => simp
    | succ i' =>
      simp only [List.getElem?_cons_succ] at h
      simpa using ih h

theorem list_getElem?_map {α β : Type} (u : α → β) (l : List α) (i : Nat) :
    (l.map u)[i]? = (l[i]?).map u := by
  induction l generalizing i with
  | nil => simp
  | cons b rest ih =>
    cases i with
    | zero => simp
    | succ i' => simpa using ih i'

theorem map_eq_append_cons {α β : Type} {u : α → β} {l : List α} {l1 l2 : List β} {b : β}
    (h : l.map u = l1 ++ b :: l2) :
    ∃ p a s, l = p ++ a :: s ∧ p.map u = l1 ∧ u a = b ∧ s.map u = l2 := by
  induction l generalizing l1 with
  | nil => simp at h
  | cons x rest ih =>
    cases l1 with
    | nil =>
      simp only [List.map_cons, List.nil_append] at h
      obtain ⟨h1, h2⟩ := List.cons.inj h
      exact ⟨[], x, rest, by simp, rfl, h1, h2⟩
    | cons y l1' =>
      simp only [List.map_cons, List.cons_append] at h
      obtain ⟨h1, h2⟩ := List.cons.inj h
      obtain ⟨p, a, s, hl, hp, ha, hs⟩ := ih h2
      exact ⟨x :: p, a, s, by simp [hl], by simp [hp, h1], ha, hs⟩

/-! ### Join-key case lemmas -/

theorem featureMatchKey_of_geom_none {f : Feature} (hg : f.geometry = none) :
    featureMatchKey f = none := by
  unfold featureMatchKey; simp only [hg]

theorem featureMatchKey_of_coords_none {f : Feature} {geom : Geometry}
    (hg : f.geometry = some geom) (hc : geom.coordinates? = none) :
    featureMatchKey f = none := by
  unfold featureMatchKey; simp only [hg, hc]

theorem featureMatchKey_of_c0_none {f : Feature} {geom : Geometry} {cs : List String}
    (hg : f.geometry = some geom) (hc : geom.coordinates? = some cs)
    (h0 : cs[0]? = none) : featureMatchKey f = none := by
  unfold featureMatchKey; simp only [hg, hc, h0]

theorem featureMatchKey_of_c1_none {f : Feature} {geom : Geometry} {cs : List String}
    {c0 : String} (hg : f.geometry = some geom) (hc : geom.coordinates? = some cs)
    (h0 : cs[0]? = some c0) (h1 : cs[1]? = none) : featureMatchKey f = none := by
  unfold featureMatchKey; simp only [hg, hc, h0, h1]

theorem featureMatchKey_of_parts {f : Feature} {geom : Geometry} {cs : List String}
    {c0 c1 : String} (hg : f.geometry = some geom) (hc : geom.coordinates? = some cs)
    (h0 : cs[0]? = some c0) (h1 : cs[1]? = some c1) :
    featureMatchKey f = some (c0 ++ "-" ++ c1) := by
  unfold featureMatchKey; simp only [hg, hc, h0, h1]

/-! ### Loop characterisation -/

theorem update_feature_ok {d : List (String × Waypoint)} {t : MarkerTable} {f f1 : Feature}
    {t1 : MarkerTable} (h : update_feature d t f = .ok (f1, t1)) :
    f1 = updFeatPure d (lookFn t) f ∧ ∀ k, lookFn t1 k = lookFn t k := by
  unfold update_feature at h
  rcases hg : f.geometry with _ | geom
  · simp only [hg, Except.ok.injEq, Prod.mk.injEq] at h
    obtain ⟨h1, h2⟩ := h
    subst h1; subst h2
    exact ⟨(updFeatPure_of_none (featureMatchKey_of_geom_none hg)).symm, fun _ => rfl⟩
  · simp only [hg] at h
    rcases hc : geom.coordinates? with _ | cs
    · simp only [hc] at h; simp at h
    · simp only [hc] at h
      rcases h0 : cs[0]? with _ | c0
      · simp only [h0] at h; simp at h
      · rcases h1 : cs[1]? with _ | c1
        · simp only [h0, h1] at h; simp at h
        · simp only [h0, h1] at h
          rcases hl : alistLookup (c0 ++ "-" ++ c1) d with _ | w
          · simp only [hl, Except.ok.injEq, Prod.mk.injEq] at h
            obtain ⟨ha, hb⟩ := h
            subst ha; subst hb
            exact ⟨(updFeatPure_of_miss (featureMatchKey_of_parts hg hc h0 h1) hl).symm,
              fun _ => rfl⟩
          · simp only [hl, Except.ok.injEq, Prod.mk.injEq] at h
            obtain ⟨ha, hb⟩ := h
            subst ha; subst hb
            refine ⟨?_, fun k => lookFn_defaultdictGet_snd t _ k⟩
            rw [updFeatPure_of_hit (featureMatchKey_of_parts hg hc h0 h1) hl, hg]
            rfl

theorem update_feature_isOk (d : List (String × Waypoint)) (t : MarkerTable) (f : Feature) :
    exceptIsOk (update_feature d t f) = featOk f := by
  unfold update_feature featOk
  rcases hg : f.geometry with _ | geom
  · simp [exceptIsOk, featureMatchKey_of_geom_none hg]
  · rcases hc : geom.coordinates? with _ | cs
    · simp [exceptIsOk, hc, featureMatchKey_of_coords_none hg hc]
    · rcases h0 : cs[0]? with _ | c0
      · simp [exceptIsOk, hc, h0, featureMatchKey_of_c0_none hg hc h0]
      · rcases h1 : cs[1]? with _ | c1
        · simp [exceptIsOk, hc, h0, h1, featureMatchKey_of_c1_none hg hc h0 h1]
        · rcases hl : alistLookup (c0 ++ "-" ++ c1) d with _ | w <;>
            simp [exceptIsOk, hc, h0, h1, hl, featureMatchKey_of_parts hg hc h0 h1]

theorem update_features_ok {d : List (String × Waypoint)} {fs : List Feature} :
    ∀ {t t1 : MarkerTable} {fs1 : List Feature}, update_features d t fs = .ok (fs1, t1) →
      fs1 = fs.map (updFeatPure d (lookFn t)) ∧ ∀ k, lookFn t1 k = lookFn t k := by
  induction fs with
  | nil =>
    intro t t1 fs1 h
    simp only [update_features, Except.ok.injEq, Prod.mk.injEq] at h
    obtain ⟨h1, h2⟩ := h
    subst h1; subst h2
    exact ⟨rfl, fun _ => rfl⟩
  | cons f fs ih =>
    intro t t1 fs1 h
    unfold update_features at h
    rcases hstep : update_feature d t f with e | ⟨fA, tA⟩
    · simp only [hstep] at h
      exact absurd h (by simp)
    · simp only [hstep] at h
      rcases hrest : update_features d tA fs with e | ⟨fs2, tB⟩
      · simp only [hrest] at h
        exact absurd h (by simp)
      · simp only [hrest, Except.ok.injEq, Prod.mk.injEq] at h
        obtain ⟨h1, h2⟩ := h
        subst h1; subst h2
        obtain ⟨hstep1, hstep2⟩ := update_feature_ok hstep
        obtain ⟨hrest1, hrest2⟩ := ih hrest
        have hfun : updFeatPure d (lookFn tA) = updFeatPure d (lookFn t) :=
          funext (fun x => updFeatPure_congr hstep2 x)
        constructor
        · rw [hstep1, hrest1, hfun, List.map_cons]
        · intro k; rw [hrest2 k, hstep2 k]

theorem update_features_isOk (d : List (String × Waypoint)) (fs : List Feature) :
    ∀ t : MarkerTable, exceptIsOk (update_features d t fs) = fs.all featOk := by
  induction fs with
  | nil => intro t; simp [update_features, exceptIsOk]
  | cons f fs ih =>
    intro t
    unfold update_features
    rcases hstep : update_feature d t f with e | ⟨fA, tA⟩
    · have hok : featOk f = false := by
        have h2 := update_feature_isOk d t f
        rw [hstep] at h2
        exact h2.symm.trans rfl
      simp [exceptIsOk, hok]
    · have hok : featOk f = true := by
        have h2 := update_feature_isOk d t f
        rw [hstep] at h2
        exact h2.symm.trans rfl
      rcases hrest : update_features d tA fs with e | ⟨fs2, tB⟩
      · have h4 := ih tA
        rw [hrest] at h4
        simp only [hrest]
        simp [exceptIsOk, hok, ← h4]
      · have h4 := ih tA
        rw [hrest] at h4
        simp only [hrest]
        simp [exceptIsOk, hok, ← h4]

/-! ### Recolouring characterisation -/

theorem color_first_point_ok {fs out : List Feature} (h : color_first_point fs = .ok out) :
    ∃ pre f ps post, fs = pre ++ f :: post ∧ (∀ x ∈ pre, isPointFeature x = false) ∧
      isPointFeature f = true ∧ f.properties = some ps ∧
      out = pre ++ withMarkerColor f ps :: post := by
  induction fs generalizing out with
  | nil => simp [color_first_point] at h
  | cons f fs ih =>
    unfold color_first_point at h
    by_cases hp : isPointFeature f = true
    · rw [if_pos hp] at h
      rcases hprops : f.properties with _ | ps
      · simp only [hprops] at h
        exact absurd h (by simp)
      · simp only [hprops, Except.ok.injEq] at h
        refine ⟨[], f, ps, fs, by simp, by simp, hp, hprops, ?_⟩
        simpa [withMarkerColor] using h.symm
    · rw [if_neg hp] at h
      rcases hrec : color_first_point fs with e | out2
      · simp only [hrec] at h
        exact absurd h (by simp)
      · simp only [hrec, Except.ok.injEq] at h
        obtain ⟨pre, g, ps, post, hdec, hpre, hpt, hprops2, hout⟩ := ih hrec
        refine ⟨f :: pre, g, ps, post, by simp [hdec], ?_, hpt, hprops2, ?_⟩
        · intro x hx
          rcases List.mem_cons.mp hx with rfl | hx2
          · simpa using hp
          · exact hpre x hx2
        · rw [← h, hout]; simp

theorem color_first_point_intro {pre post : List Feature} {f : Feature}
    {ps : List (String × String)} (hpre : ∀ x ∈ pre, isPointFeature x = false)
    (hf : isPointFeature f = true) (hp : f.properties = some ps) :
    color_first_point (pre ++ f :: post) = .ok (pre ++ withMarkerColor f ps :: post) := by
  induction pre with
  | nil => simp [color_first_point, hf, hp, withMarkerColor]
  | cons a rest ih =>
    have ha : isPointFeature a = false := hpre a (by simp)
    have ih' := ih (fun x hx => hpre x (by simp [hx]))
    simp [color_first_point, ha, ih']

/-! ### Characterisation of a successful update_geojson run -/

theorem update_geojson_intro {t tA : MarkerTable} {g : TrailGeojson} {ws : List Waypoint}
    {fs fs1 : List Feature}
    (h1 : update_features (waypointsDict ws) t g.features = .ok (fs, tA))
    (h2 : color_first_point fs = .ok fs1) :
    update_geojson t g ws = .ok (⟨fs1⟩, tA) := by
  unfold update_geojson; simp only [h1, h2]

theorem update_geojson_elim {t t1 : MarkerTable} {g g1 : TrailGeojson} {ws : List Waypoint}
    (h : update_geojson t g ws = .ok (g1, t1)) :
    ∃ fs pre f1 ps post,
      update_features (waypointsDict ws) t g.features = .ok (fs, t1) ∧
      color_first_point fs = .ok g1.features ∧
      fs = g.features.map (updFeatPure (waypointsDict ws) (lookFn t)) ∧
      (∀ k, lookFn t1 k = lookFn t k) ∧
      fs = pre ++ f1 :: post ∧ (∀ x ∈ pre, isPointFeature x = false) ∧
      isPointFeature f1 = true ∧ f1.properties = some ps ∧
      g1.features = pre ++ withMarkerColor f1 ps :: post := by
  unfold update_geojson at h
  rcases hloop : update_features (waypointsDict ws) t g.features with e | ⟨fs, tA⟩
  · simp only [hloop] at h
    exact absurd h (by simp)
  · simp only [hloop] at h
    rcases hcfp : color_first_point fs with e | fs1
    · simp only [hcfp] at h
      exact absurd h (by simp)
    · simp only [hcfp, Except.ok.injEq, Prod.mk.injEq] at h
      obtain ⟨h1, h2⟩ := h
      subst h2
      obtain ⟨hmap, hlook⟩ := update_features_ok hloop
      obtain ⟨pre, f1, ps, post, hdec, hpre, hpt, hprops, hout⟩ := color_first_point_ok hcfp
      refine ⟨fs, pre, f1, ps, post, rfl, ?_, hmap, hlook, hdec, hpre, hpt, hprops, ?_⟩
      · rw [← h1]; exact hcfp
      · rw [← h1]; exact hout

theorem update_geojson_master {t t1 : MarkerTable} {g g1 : TrailGeojson} {ws : List Waypoint}
    (h : update_geojson t g ws = .ok (g1, t1)) :
    ∃ j f0 ps,
      firstPointIdx g.features = some j ∧
      g.features[j]? = some f0 ∧
      (updFeatPure (waypointsDict ws) (lookFn t) f0).properties = some ps ∧
      (∀ k, lookFn t1 k = lookFn t k) ∧
      g1.features = (g.features.map (updFeatPure (waypointsDict ws) (lookFn t))).set j
        (withMarkerColor (updFeatPure (waypointsDict ws) (lookFn t) f0) ps) := by
  obtain ⟨fs, pre, f1, ps, post, _, _, hmap, hlook, hdec, hpre, hpt, hprops, hout⟩ :=
    update_geojson_elim h
  obtain ⟨pre0, f0, post0, hfeats, hpre0, hf0, hpost0⟩ := map_eq_append_cons (hmap ▸ hdec)
  have hlen : pre.length = pre0.length := by rw [← hpre0, List.length_map]
  have hpre0pt : ∀ x ∈ pre0, isPointFeature x = false := by
    intro x hx
    have hmem : updFeatPure (waypointsDict ws) (lookFn t) x ∈ pre := by
      rw [← hpre0]; exact List.mem_map_of_mem _ hx
    rw [← updFeatPure_isPoint (waypointsDict ws) (lookFn t) x]
    exact hpre _ hmem
  have hf0pt : isPointFeature f0 = true := by
    rw [← updFeatPure_isPoint (waypointsDict ws) (lookFn t) f0, hf0]
    exact hpt
  refine ⟨pre0.length, f0, ps, ?_, ?_, ?_, hlook, ?_⟩
  · rw [hfeats]; exact firstPointIdx_append hpre0pt hf0pt
  · rw [hfeats]; exact getElem?_append_cons pre0 f0 post0
  · rw [hf0]; exact hprops
  · rw [hout, ← hmap, hdec, ← hlen, hf0]
    exact (set_append_cons pre f1 (withMarkerColor f1 ps) post).symm

theorem withMarkerColor_geometry (f : Feature) (ps : List (String × String)) :
    (withMarkerColor f ps).geometry = f.geometry := rfl

theorem withMarkerColor_isPoint (f : Feature) (ps : List (String × String)) :
    isPointFeature (withMarkerColor f ps) = isPointFeature f :=
  isPointFeature_geom (withMarkerColor_geometry f ps)

theorem matchesWaypoint_geom {f1 f2 : Feature} (ws : List Waypoint)
    (h : f1.geometry = f2.geometry) :
    matchesWaypoint ws f1 = matchesWaypoint ws f2 := by
  unfold matchesWaypoint; rw [featureMatchKey_geom h]

/-! ### Claim theorems -/

/-- Claim C3: the category-to-icon mapping is total — every category in
the explicit table maps to that table's icon, and every other key
(including the absent category, modelled as none) maps to the default
icon location-pin. -/
theorem C3_marker_mapping_total :
    (∀ k v, (k, v) ∈ MARKER_DICT → (defaultdictGet MARKER_DICT k).1 = v) ∧
    (∀ k, alistLookup k MARKER_DICT = none →
      (defaultdictGet MARKER_DICT k).1 = "location-pin") := by
  constructor
  · intro k v hmem
    simp only [MARKER_DICT, List.mem_cons, List.not_mem_nil, or_false, Prod.mk.injEq] at hmem
    rcases hmem with ⟨rfl, rfl⟩ | ⟨rfl, rfl⟩ | ⟨rfl, rfl⟩ | ⟨rfl, rfl⟩ |
      ⟨rfl, rfl⟩ | ⟨rfl, rfl⟩ | ⟨rfl, rfl⟩ <;> rfl
  · intro k h
    unfold defaultdictGet
    simp only [h]

/-- Witness for C3 at concrete categories: a table hit, an unknown
label, and the absent category. -/
theorem C3_witness :
    (defaultdictGet MARKER_DICT (some "Cave")).1 = "summit" ∧
    (defaultdictGet MARKER_DICT (some "Volcano")).1 = "location-pin" ∧
    (defaultdictGet MARKER_DICT none).1 = "location-pin" :=
  ⟨C3_marker_mapping_total.1 (some "Cave") "summit" (by simp [MARKER_DICT]),
   C3_marker_mapping_total.2 (some "Volcano") rfl,
   C3_marker_mapping_total.2 none rfl⟩

/-- Claim C5: when the create-map response has no id key, the publish
sequence performs only the upload call — neither the update nor the
refresh endpoint is reached — and the run fails with the KeyError
raised by the id access. -/
theorem C5_create_aborts (trail_title trail_uri : String)
    (createResp updateResp refreshResp : JsonObj)
    (h : alistLookup "id" createResp = none) :
    create_maphub_trailmap trail_title trail_uri createResp updateResp refreshResp =
      ⟨[ApiEndpoint.upload], ["CREATING MAPHUB MAP"], .error .keyError⟩ := by
  unfold create_maphub_trailmap
  simp only [h]

/-- Witness for C5 on a concrete error response. -/
theorem C5_witness :
    create_maphub_trailmap "My Trail" "/trails/x" [("error", "upload failed")] [] [] =
      ⟨[ApiEndpoint.upload], ["CREATING MAPHUB MAP"], .error .keyError⟩ :=
  C5_create_aborts "My Trail" "/trails/x" [("error", "upload failed")] [] [] rfl

/-- Counterexample to claim C6 as stated: with skip set to true and fail
left at its Python default of true, a 404 response does not produce the
silent success exit — the mutual-exclusion check raises a CLI error
first. -/
theorem C6_counterexample :
    skip_or_fail ⟨404, "https://example.com/trail"⟩ true true =
      CheckOutcome.clickError "--skip and --fail cannot be used together" ∧
    isExitSuccess (skip_or_fail ⟨404, "https://example.com/trail"⟩ true true) = false :=
  ⟨rfl, rfl⟩

/-- Claim C6 (amended): for a 4xx/5xx navigation response, the check
with skip set to true and fail set to false echoes the skip message and
exits the process with a success status, taking no further action. -/
theorem C6_skip_success (response : NavResponse)
    (h : firstDigitIs45 response.status = true) :
    skip_or_fail response true false =
      .exitSuccess (toString response.status ++ " error for " ++ response.url ++ ", skipping") := by
  unfold skip_or_fail
  simp [h]

/-- Witness for the amended C6 at a concrete 404 response. -/
theorem C6_witness :
    skip_or_fail ⟨404, "https://example.com/a"⟩ true false =
      CheckOutcome.exitSuccess "404 error for https://example.com/a, skipping" := by
  rw [C6_skip_success ⟨404, "https://example.com/a"⟩ rfl]
  rfl

/-- Claim C7: in default mode (skip false, fail true) a response whose
status string starts with 4 or 5 raises a CLI error naming the status
and the URL, and any other response passes the check unchanged. -/
theorem C7_fail_mode (response : NavResponse) :
    (firstDigitIs45 response.status = true →
      skip_or_fail response false true =
        .clickError (toString response.status ++ " error for " ++ response.url)) ∧
    (firstDigitIs45 response.status = false →
      skip_or_fail response false true = .ok) := by
  constructor <;> intro h <;> unfold skip_or_fail <;> simp [h]

/-- Witness for C7 at a concrete 500 failure and a concrete 200 pass. -/
theorem C7_witness :
    skip_or_fail ⟨500, "https://example.com/b"⟩ false true =
      CheckOutcome.clickError "500 error for https://example.com/b" ∧
    skip_or_fail ⟨200, "https://example.com/b"⟩ false true = CheckOutcome.ok := by
  constructor
  · rw [(C7_fail_mode ⟨500, "https://example.com/b"⟩).1 rfl]
    rfl
  · exact (C7_fail_mode ⟨200, "https://example.com/b"⟩).2 rfl

/-- Claim C8: when the update response has no id but carries an error,
the error text is printed and the failure is not fatal — the refresh
endpoint is still called. -/
theorem C8_update_nonfatal (trail_title trail_uri mid e : String)
    (createResp updateResp refreshResp : JsonObj)
    (hc : alistLookup "id" createResp = some mid)
    (hu : alistLookup "id" updateResp = none)
    (he : alistLookup "error" updateResp = some e) :
    ApiEndpoint.refreshImage ∈
      (create_maphub_trailmap trail_title trail_uri createResp updateResp refreshResp).calls ∧
    e ∈ (create_maphub_trailmap trail_title trail_uri createResp updateResp refreshResp).printed := by
  have hum : update_map updateResp = ([e], .ok ()) := by
    unfold update_map
    simp only [hu, he]
  unfold create_maphub_trailmap
  simp only [hc, hum]
  rcases hr : refresh_map_image refreshResp with ⟨m2, o2⟩
  rcases o2 with e2 | u
  · simp [hr]
  · rcases hurl : alistLookup "url" createResp with _ | url <;> simp [hr, hurl]

/-- Witness for C8 on concrete responses. -/
theorem C8_witness :
    ApiEndpoint.refreshImage ∈
      (create_maphub_trailmap "T" "/t" [("id", "m1"), ("url", "u1")]
        [("error", "bad update")] [("id", "m1")]).calls ∧
    "bad update" ∈
      (create_maphub_trailmap "T" "/t" [("id", "m1"), ("url", "u1")]
        [("error", "bad update")] [("id", "m1")]).printed :=
  C8_update_nonfatal "T" "/t" "m1" "bad update"
    [("id", "m1"), ("url", "u1")] [("error", "bad update")] [("id", "m1")] rfl rfl rfl

/-- Counterexample to claim C9 as stated: merging a waypoint whose
category is not in the table changes the contents of the marker table —
the defaultdict lookup inserts the missing key with the default icon. -/
theorem C9_counterexample :
    update_geojson MARKER_DICT exG exWs9 = .ok (exG9out, exT9) ∧ exT9 ≠ MARKER_DICT :=
  ⟨rfl, by decide⟩

/-- Claim C9 (amended): the merge can only extend the marker table with
default-valued entries, so the category-to-icon function the table
computes is unchanged by a successful run. -/
theorem C9_lookup_preserved (t t1 : MarkerTable) (g g1 : TrailGeojson) (ws : List Waypoint)
    (h : update_geojson t g ws = .ok (g1, t1)) :
    ∀ k, lookFn t1 k = lookFn t k := by
  obtain ⟨fs, pre, f1, ps, post, hloop, hcfp, hmap, hlook, hdec, hpre, hpt, hprops, hout⟩ :=
    update_geojson_elim h
  exact hlook

/-- Witness for the amended C9 on the unrecognised-category run. -/
theorem C9_witness : lookFn exT9 (some "Volcano") = lookFn MARKER_DICT (some "Volcano") :=
  C9_lookup_preserved MARKER_DICT exT9 exG exG9out exWs9 rfl (some "Volcano")

/-- Counterexample to claim C1 as stated: on the single matched point
the output properties are not exactly the three-entry mapping — the
feature, being the first point, additionally carries marker-color. -/
theorem C1_counterexample :
    update_geojson MARKER_DICT exG exWs = .ok (exGout, MARKER_DICT) ∧
    matchesWaypoint exWs exFeature = true ∧
    exGout.features.map Feature.properties = [some cexOutProps] ∧
    alistLookup "marker-color" cexOutProps = some "#3cc954" ∧
    cexOutProps ≠ waypointProps (lookFn MARKER_DICT) exWaypoint :=
  ⟨rfl, rfl, rfl, rfl, by decide⟩

/-- Claim C1 (amended): every feature whose join key hits the waypoint
dict gets its properties replaced by exactly title, description and
marker-symbol from that waypoint — except the first point-typed
feature, which additionally gains marker-color appended after them. -/
theorem C1_matched_properties (t t1 : MarkerTable) (g g1 : TrailGeojson) (ws : List Waypoint)
    (i : Nat) (f : Feature) (k : String) (w : Waypoint)
    (h : update_geojson t g ws = .ok (g1, t1))
    (hfi : g.features[i]? = some f)
    (hkey : featureMatchKey f = some k)
    (hw : alistLookup k (waypointsDict ws) = some w) :
    ∃ f1, g1.features[i]? = some f1 ∧ f1.geometry = f.geometry ∧
      f1.properties = some (waypointProps (lookFn t) w ++
        (if firstPointIdx g.features = some i then [("marker-color", "#3cc954")] else [])) := by
  obtain ⟨j, f0, ps, hidx, hj, hps, hlook, hset⟩ := update_geojson_master h
  by_cases hij : i = j
  · subst hij
    rw [hfi] at hj
    have hf0 : f0 = f := (Option.some.inj hj).symm
    subst hf0
    have hufit : updFeatPure (waypointsDict ws) (lookFn t) f0 =
        { f0 with properties := some (waypointProps (lookFn t) w) } :=
      updFeatPure_of_hit hkey hw
    have hpswp : ps = waypointProps (lookFn t) w := by
      rw [hufit] at hps
      exact Option.some.inj hps.symm
    have hlen : i < (g.features.map (updFeatPure (waypointsDict ws) (lookFn t))).length := by
      rw [List.length_map]
      exact list_getElem?_some_lt hfi
    refine ⟨withMarkerColor (updFeatPure (waypointsDict ws) (lookFn t) f0) ps,
      by rw [hset, list_getElem?_set_self hlen], ?_, ?_⟩
    · rw [withMarkerColor_geometry, updFeatPure_geometry]
    · rw [if_pos hidx]
      unfold withMarkerColor
      rw [hufit, feature_setProps_setProps, hpswp, setKey_waypointProps_mc]
  · have hji : j ≠ i := fun hh => hij hh.symm
    refine ⟨updFeatPure (waypointsDict ws) (lookFn t) f,
      by rw [hset, list_getElem?_set_ne hji, list_getElem?_map, hfi, Option.map_some'], ?_, ?_⟩
    · exact updFeatPure_geometry _ _ f
    · rw [updFeatPure_of_hit hkey hw]
      rw [if_neg (fun hh => hij (Option.some.inj (hidx.symm.trans hh)).symm)]
      rw [List.append_nil]

/-- Witness for the amended C1: on the two-feature collection the
matched first point ends with the three joined entries plus the
appended marker colour. -/
theorem C1_witness :
    ∃ f1, exG2out.features[0]? = some f1 ∧ f1.geometry = exFeature.geometry ∧
      f1.properties = some (waypointProps (lookFn MARKER_DICT) exWaypoint ++
        (if firstPointIdx exG2.features = some 0 then [("marker-color", "#3cc954")] else [])) :=
  C1_matched_properties MARKER_DICT MARKER_DICT exG2 exG2out exWs 0 exFeature
    "1.0-2.0" exWaypoint rfl rfl rfl rfl

/-- Claim C2: a successful merge neither adds nor removes features — the
output has the same length, each output feature keeps the geometry of
the input feature at the same index, every unmatched feature other than
the first point-typed one is returned unchanged, and the unmatched
first point keeps its input properties except for the added
marker-color entry. -/
theorem C2_frame (t t1 : MarkerTable) (g g1 : TrailGeojson) (ws : List Waypoint)
    (h : update_geojson t g ws = .ok (g1, t1)) :
    g1.features.length = g.features.length ∧
    (∀ (i : Nat) (f : Feature), g.features[i]? = some f →
      ∃ f1 : Feature, g1.features[i]? = some f1 ∧ f1.geometry = f.geometry) ∧
    (∀ (i : Nat) (f : Feature), g.features[i]? = some f → matchesWaypoint ws f = false →
      firstPointIdx g.features ≠ some i → g1.features[i]? = some f) ∧
    (∀ (i : Nat) (f : Feature), g.features[i]? = some f → matchesWaypoint ws f = false →
      firstPointIdx g.features = some i →
      ∃ ps, f.properties = some ps ∧ g1.features[i]? = some (withMarkerColor f ps)) := by
  obtain ⟨j, f0, ps, hidx, hj, hps, hlook, hset⟩ := update_geojson_master h
  refine ⟨?_, ?_, ?_, ?_⟩
  · rw [hset, List.length_set, List.length_map]
  · intro i f hfi
    by_cases hij : i = j
    · subst hij
      rw [hfi] at hj
      have hf0 : f0 = f := (Option.some.inj hj).symm
      subst hf0
      have hlen : i < (g.features.map (updFeatPure (waypointsDict ws) (lookFn t))).length := by
        rw [List.length_map]
        exact list_getElem?_some_lt hfi
      refine ⟨_, by rw [hset, list_getElem?_set_self hlen], ?_⟩
      rw [withMarkerColor_geometry, updFeatPure_geometry]
    · have hji : j ≠ i := fun hh => hij hh.symm
      refine ⟨_, by rw [hset, list_getElem?_set_ne hji, list_getElem?_map, hfi,
        Option.map_some'], ?_⟩
      exact updFeatPure_geometry _ _ f
  · intro i f hfi hm hnot
    have hij : i ≠ j := fun hh => hnot (hh ▸ hidx)
    have hji : j ≠ i := fun hh => hij hh.symm
    rw [hset, list_getElem?_set_ne hji, list_getElem?_map, hfi, Option.map_some']
    rw [updFeatPure_unmatched (lookFn t) hm]
  · intro i f hfi hm heq
    have hij : i = j := Option.some.inj (heq.symm.trans hidx)
    subst hij
    rw [hfi] at hj
    have hf0 : f0 = f := (Option.some.inj hj).symm
    subst hf0
    have hfix : updFeatPure (waypointsDict ws) (lookFn t) f0 = f0 :=
      updFeatPure_unmatched (lookFn t) hm
    rw [hfix] at hps hset
    have hlen : i < (g.features.map (updFeatPure (waypointsDict ws) (lookFn t))).length := by
      rw [List.length_map]
      exact list_getElem?_some_lt hfi
    exact ⟨ps, hps, by rw [hset, list_getElem?_set_self hlen]⟩

/-- Witness for C2: the run on the point-plus-line collection keeps the
length and the unmatched line, and the run on the unmatched point keeps
its properties and appends the marker colour. -/
theorem C2_witness :
    exG2out.features.length = exG2.features.length ∧
    exG2out.features[1]? = some lineFeature ∧
    (∃ ps, plainPoint.properties = some ps ∧
      exG3out.features[0]? = some (withMarkerColor plainPoint ps)) := by
  refine ⟨(C2_frame MARKER_DICT MARKER_DICT exG2 exG2out exWs rfl).1, ?_, ?_⟩
  · exact (C2_frame MARKER_DICT MARKER_DICT exG2 exG2out exWs rfl).2.2.1 1 lineFeature
      rfl rfl (by decide)
  · exact (C2_frame MARKER_DICT MARKER_DICT exG3 exG3out exWs rfl).2.2.2 0 plainPoint
      rfl rfl rfl

/-- Claim C10: a merge run returns normally only when the collection has
a point-typed feature whose first occurrence either matches a waypoint
or already carries properties; with no point feature, or an unmatched
first point without properties, the run raises instead of returning. -/
theorem C10_success_needs_point (t : MarkerTable) (g : TrailGeojson) (ws : List Waypoint) :
    (exceptIsOk (update_geojson t g ws) = true →
      ∃ i f, firstPointIdx g.features = some i ∧ g.features[i]? = some f ∧
        (matchesWaypoint ws f = true ∨ f.properties.isSome = true)) ∧
    (firstPointIdx g.features = none → exceptIsOk (update_geojson t g ws) = false) ∧
    (∀ i f, firstPointIdx g.features = some i → g.features[i]? = some f →
      matchesWaypoint ws f = false → f.properties = none →
      exceptIsOk (update_geojson t g ws) = false) := by
  have main : exceptIsOk (update_geojson t g ws) = true →
      ∃ i f, firstPointIdx g.features = some i ∧ g.features[i]? = some f ∧
        (matchesWaypoint ws f = true ∨ f.properties.isSome = true) := by
    intro hok
    rcases hres : update_geojson t g ws with e | ⟨g1, t1⟩
    · rw [hres] at hok
      exact absurd hok (by simp [exceptIsOk])
    · obtain ⟨j, f0, ps, hidx, hj, hps, _, _⟩ := update_geojson_master hres
      refine ⟨j, f0, hidx, hj, ?_⟩
      rcases hk : featureMatchKey f0 with _ | k
      · right
        rw [updFeatPure_of_none hk] at hps
        simp [hps]
      · rcases hw : alistLookup k (waypointsDict ws) with _ | w
        · right
          rw [updFeatPure_of_miss hk hw] at hps
          simp [hps]
        · left
          exact updFeatPure_matched hk (fun hn => Option.noConfusion (hn.symm.trans hw))
  refine ⟨main, ?_, ?_⟩
  · intro hnone
    cases hb : exceptIsOk (update_geojson t g ws) with
    | false => rfl
    | true =>
      obtain ⟨i, f, hidx, _, _⟩ := main hb
      rw [hnone] at hidx
      exact Option.noConfusion hidx
  · intro i f hidx hfi hm hp
    cases hb : exceptIsOk (update_geojson t g ws) with
    | false => rfl
    | true =>
      obtain ⟨i2, f2, hidx2, hfi2, hor⟩ := main hb
      have hii : i2 = i := Option.some.inj (hidx2.symm.trans hidx)
      subst hii
      have hff : f2 = f := Option.some.inj (hfi2.symm.trans hfi)
      subst hff
      rcases hor with hm2 | hp2
      · rw [hm] at hm2
        exact Bool.noConfusion hm2
      · rw [hp] at hp2
        simp at hp2

/-- Witness for C10 on the collection whose single point carries
properties but matches no waypoint. -/
theorem C10_witness :
    ∃ i f, firstPointIdx exG3.features = some i ∧ exG3.features[i]? = some f ∧
      (matchesWaypoint exWs f = true ∨ f.properties.isSome = true) :=
  (C10_success_needs_point MARKER_DICT exG3 exWs).1 rfl

/-- Claim C4: the merge is idempotent — feeding a successful output back
through update_geojson with the same waypoint list (and the marker
table state left by the first run) reproduces the output exactly. -/
theorem C4_idempotent (t t1 : MarkerTable) (g g1 : TrailGeojson) (ws : List Waypoint)
    (h : update_geojson t g ws = .ok (g1, t1)) :
    ∃ t2, update_geojson t1 g1 ws = .ok (g1, t2) := by
  obtain ⟨fs, pre, f1, ps, post, hloop, hcfp, hmap, hlook, hdec, hpre, hpt, hprops, hout⟩ :=
    update_geojson_elim h
  have hufix : ∀ x ∈ fs, updFeatPure (waypointsDict ws) (lookFn t) x = x := by
    intro x hx
    rw [hmap] at hx
    obtain ⟨y, _, rfl⟩ := List.mem_map.mp hx
    exact updFeatPure_idem _ _ y
  have hfeatok : ∀ x ∈ fs, featOk x = true := by
    have hall : g.features.all featOk = true := by
      have h5 := update_features_isOk (waypointsDict ws) g.features t
      rw [hloop] at h5
      exact h5.symm.trans rfl
    intro x hx
    rw [hmap] at hx
    obtain ⟨y, hy, rfl⟩ := List.mem_map.mp hx
    rw [updFeatPure_featOk]
    exact List.all_eq_true.mp hall y hy
  have hf1mem : f1 ∈ fs := by
    rw [hdec]
    exact List.mem_append_right _ (List.mem_cons_self _ _)
  have houtok : g1.features.all featOk = true := by
    rw [hout]
    refine List.all_eq_true.mpr ?_
    intro x hx
    rcases List.mem_append.mp hx with hx1 | hx2
    · exact hfeatok x (by rw [hdec]; exact List.mem_append_left _ hx1)
    · rcases List.mem_cons.mp hx2 with rfl | hx3
      · rw [featOk_geom (withMarkerColor_geometry f1 ps)]
        exact hfeatok f1 hf1mem
      · exact hfeatok x (by rw [hdec]; exact List.mem_append_right _ (List.mem_cons_of_mem _ hx3))
  have hok2 : exceptIsOk (update_features (waypointsDict ws) t1 g1.features) = true := by
    rw [update_features_isOk]
    exact houtok
  rcases hloop2 : update_features (waypointsDict ws) t1 g1.features with e | ⟨out2, t2⟩
  · rw [hloop2] at hok2
    exact absurd hok2 (by simp [exceptIsOk])
  · obtain ⟨hmap2, _⟩ := update_features_ok hloop2
    have hfun : updFeatPure (waypointsDict ws) (lookFn t1) = updFeatPure (waypointsDict ws) (lookFn t) :=
      funext (fun x => updFeatPure_congr hlook x)
    rw [hfun] at hmap2
    have hprefix : pre.map (updFeatPure (waypointsDict ws) (lookFn t)) = pre :=
      list_map_fixed (fun x hx => hufix x (by rw [hdec]; exact List.mem_append_left _ hx))
    have hpostfix : post.map (updFeatPure (waypointsDict ws) (lookFn t)) = post :=
      list_map_fixed (fun x hx => hufix x
        (by rw [hdec]; exact List.mem_append_right _ (List.mem_cons_of_mem _ hx)))
    rw [hout, List.map_append, List.map_cons, hprefix, hpostfix] at hmap2
    have hwmcprops : (withMarkerColor f1 ps).properties =
        some (setKey ps "marker-color" "#3cc954") := rfl
    have hwmcpt : isPointFeature (withMarkerColor f1 ps) = true := by
      rw [withMarkerColor_isPoint]
      exact hpt
    cases hmw : matchesWaypoint ws f1 with
    | false =>
      have hwmc : updFeatPure (waypointsDict ws) (lookFn t) (withMarkerColor f1 ps) =
          withMarkerColor f1 ps :=
        updFeatPure_unmatched (lookFn t)
          (by rw [matchesWaypoint_geom ws (withMarkerColor_geometry f1 ps)]; exact hmw)
      rw [hwmc, ← hout] at hmap2
      have hcfp2 : color_first_point g1.features = .ok g1.features := by
        rw [hout]
        have h8 : color_first_point (pre ++ withMarkerColor f1 ps :: post) =
            .ok (pre ++ withMarkerColor (withMarkerColor f1 ps)
              (setKey ps "marker-color" "#3cc954") :: post) :=
          color_first_point_intro hpre hwmcpt hwmcprops
        rw [h8]
        have h9 : withMarkerColor (withMarkerColor f1 ps) (setKey ps "marker-color" "#3cc954") =
            withMarkerColor f1 ps := by
          unfold withMarkerColor
          rw [feature_setProps_setProps, setKey_setKey]
        rw [h9]
      rw [hmap2] at hloop2
      exact ⟨t2, update_geojson_intro hloop2 hcfp2⟩
    | true =>
      unfold matchesWaypoint at hmw
      rcases hk : featureMatchKey f1 with _ | k
      · simp only [hk] at hmw
        exact Bool.noConfusion hmw
      · simp only [hk] at hmw
        rcases hw : alistLookup k (waypointsDict ws) with _ | w
        · rw [hw] at hmw
          simp at hmw
        · have hf1fix : updFeatPure (waypointsDict ws) (lookFn t) f1 = f1 := hufix f1 hf1mem
          have h5 : updFeatPure (waypointsDict ws) (lookFn t) f1 =
              { f1 with properties := some (waypointProps (lookFn t) w) } :=
            updFeatPure_of_hit hk hw
          have hf1props : f1.properties = some (waypointProps (lookFn t) w) := by
            rw [hf1fix] at h5
            exact congrArg Feature.properties h5
          have hwmcu : updFeatPure (waypointsDict ws) (lookFn t) (withMarkerColor f1 ps) = f1 := by
            have hk2 : featureMatchKey (withMarkerColor f1 ps) = some k := by
              rw [featureMatchKey_geom (withMarkerColor_geometry f1 ps), hk]
            have h7 : updFeatPure (waypointsDict ws) (lookFn t) (withMarkerColor f1 ps) =
                { withMarkerColor f1 ps with properties := some (waypointProps (lookFn t) w) } :=
              updFeatPure_of_hit hk2 hw
            rw [h7]
            unfold withMarkerColor
            rw [feature_setProps_setProps, ← hf1props]
          rw [hwmcu, ← hdec] at hmap2
          rw [hmap2] at hloop2
          exact ⟨t2, update_geojson_intro hloop2 hcfp⟩

/-- Witness for C4: running the merge a second time on the scenario
output reproduces it. -/
theorem C4_witness : ∃ t2, update_geojson MARKER_DICT exGout exWs = .ok (exGout, t2) :=
  C4_idempotent MARKER_DICT MARKER_DICT exG exGout exWs rfl

end WikilocExport
